import Mathlib

/-!
Verification of the colonialwars-client core against its design document.

The development shallowly embeds the JavaScript sources:

* `src/client/js/cwdtp/conn.js` — the CWDTP client connection (`WSConn`):
  message framing codec (`_encodeMsg` / `_decodeMsg`), handshake, heartbeat,
  close protocol, and the associated timers, modelled as explicit state
  transition functions over a `ConnState` record;
* the buffer utilities (`toBinary`, `toString`, `toBase64`, `concatBuffers`)
  from the unnamed buffer-utils module;
* `src/src/cwdtp/crypto.js` — the `hash` wrapper (SHA-1 via the platform's
  WebCrypto; a reference SHA-1 is implemented here);
* `src/client/js/game/player.js` — the client-side prediction `Player` class
  (`acceptAuthoritarianState`, `_getVelocity`, `_update`).

JavaScript machine integers are modelled as `Nat`/`Int` with explicit
`% 2^w` wraps where the code stores into typed arrays.  JS numbers appearing
in the claims are integral, and are modelled as `Int` (positions, velocities
and timestamps in the prediction engine use `ℚ` so that `Math.floor` is
visible).  Fallible operations return `Except`.  Mutable `ArrayBuffer`s are
modelled with an explicit store so that aliasing of typed-array views is
representable.
-/

namespace CW

/-! ## Buffer utilities (buffer-utils module)

JavaScript `ArrayBuffer`s are mutable byte stores shared between typed-array
views.  A `Store` holds every allocated buffer (indexed by allocation order);
a `BufView` is a typed-array view or `DataView` onto one of them.  Only the
byte-level structure is kept: element kind does not matter to `concatBuffers`
beyond the `DataView` check. -/

/-- Store of allocated `ArrayBuffer`s; each buffer is its list of bytes. -/
structure Store where
  bufs : List (List Nat)
deriving DecidableEq

/-- View onto a buffer of the store (a typed array or `DataView`):
`bufId` indexes into `Store.bufs`. -/
structure BufView where
  bufId : Nat
  byteOffset : Nat
  byteLength : Nat
  isDataView : Bool
deriving DecidableEq

/-- JavaScript error classes thrown by the embedded code. -/
inductive JsError
  | typeError (msg : String)
  | rangeError (msg : String)
  | error (msg : String)
deriving DecidableEq

/-- Bytes of the whole underlying `ArrayBuffer` of a view: this is what
`new Uint8Array(buf.buffer)` exposes (the *entire* buffer, ignoring the
view's offset and length). -/
def wholeBufBytes (st : Store) (v : BufView) : List Nat :=
  st.bufs.getD v.bufId []

/-- Bytes visible through a view (`byteOffset`, `byteLength` window). -/
def viewBytes (st : Store) (v : BufView) : List Nat :=
  ((st.bufs.getD v.bufId []).drop v.byteOffset).take v.byteLength

/-- Write one byte through a view, as `view[i] = val` on a `Uint8Array`:
out-of-range indices are ignored, in-range writes mutate the underlying
buffer in the store. -/
def writeViewByte (st : Store) (v : BufView) (i val : Nat) : Store :=
  if i < v.byteLength then
    ⟨st.bufs.set v.bufId ((st.bufs.getD v.bufId []).set (v.byteOffset + i) val)⟩
  else st

/-- Semantics of `TypedArray.prototype.set(src, offset)` on byte arrays:
copies `src` into `dest` starting at `offset`.  The caller checks the
`RangeError` condition (`offset + src.length ≤ dest.length`). -/
def copyInto (dest : List Nat) (offset : Nat) (src : List Nat) : List Nat :=
  dest.take offset ++ src ++ dest.drop (offset + src.length)

/-- Copy loop of `concatBuffers`: `result.set(new Uint8Array(buf.buffer), offset);
offset += buf.byteLength` over the argument list. -/
def concatCopyLoop (st : Store) : List Nat → Nat → List BufView → Except JsError (List Nat)
  | result, _, [] => .ok result
  | result, offset, b :: bs =>
    let src := wholeBufBytes st b
    if result.length < offset + src.length then
      .error (.rangeError "offset is out of bounds")
    else
      concatCopyLoop st (copyInto result offset src) (offset + b.byteLength) bs

/-- Embedding of `concatBuffers(...buffers)` from the buffer-utils module.
With fewer than two buffers the code runs
`return new Uint8Array(buffers[0].buffer) || null`: for zero buffers
`buffers[0]` is `undefined` and reading `.buffer` throws a `TypeError`; for
one buffer it returns a fresh `Uint8Array` *view over the same underlying
`ArrayBuffer`* (no copy).  With two or more buffers it allocates the summed
byte length and copies each buffer's underlying bytes in argument order. -/
def concatBuffers (st : Store) (buffers : List BufView) : Except JsError (Store × BufView) :=
  if ¬ buffers.all (fun b => !b.isDataView) then
    .error (.typeError "All buffers must be TypedArrays. No DataViews!")
  else
    match buffers with
    | [] => .error (.typeError "Cannot read properties of undefined (reading 'buffer')")
    | [b] => .ok (st, ⟨b.bufId, 0, (wholeBufBytes st b).length, false⟩)
    | _ :: _ :: _ =>
      let len := (buffers.map BufView.byteLength).sum
      match concatCopyLoop st (List.replicate len 0) 0 buffers with
      | .error e => .error e
      | .ok result =>
        .ok (⟨st.bufs ++ [result]⟩, ⟨st.bufs.length, 0, len, false⟩)

/-! ## String and UTF-16 code-unit conversions (buffer-utils module)

A JavaScript string is a sequence of UTF-16 code units.  `utf16Units`
produces that sequence for a Lean `String` (surrogate pairs for code points
above `0xFFFF`). -/

/-- UTF-16 code units of a single character. -/
def charUnits (c : Char) : List Nat :=
  if c.toNat < 0x10000 then [c.toNat]
  else
    let v := c.toNat - 0x10000
    [0xD800 + v / 0x400, 0xDC00 + v % 0x400]

/-- UTF-16 code units of a string, as `charCodeAt` enumerates them. -/
def utf16Units (s : String) : List Nat :=
  s.data.flatMap charUnits

/-- Embedding of `toBinary(str, false)` (the default char-code mode used by
the CWDTP codec): `new Uint16Array(str.split('').map((_, i) => str.charCodeAt(i)))`.
Each code unit is below `2^16`, and `Uint16Array` stores values mod `2^16`. -/
def toBinary (s : String) : List Nat :=
  (utf16Units s).map (· % 0x10000)

/-- Embedding of `toString(bin, false)`: `String.fromCharCode` on every
element, joined.  Faithful for code units that are Unicode scalar values;
the claims only exercise those (JS strings may hold lone surrogates, Lean
strings cannot). -/
def bufToString (bin : List Nat) : String :=
  ⟨bin.map Char.ofNat⟩

/-! ## Base64 (`toBase64`, i.e. `window.btoa` over the byte string) -/

/-- Base64 alphabet. -/
def b64Alphabet : List Char :=
  "ABCDEFGHIJKLMNOPQRSTUVWXYZabcdefghijklmnopqrstuvwxyz0123456789+/".data

/-- Character for a 6-bit group. -/
def b64Char (n : Nat) : Char := b64Alphabet.getD n 'A'

/-- Base64 encoding of a byte list, three bytes at a time, with `=` padding. -/
def b64Groups : List Nat → List Char
  | [] => []
  | [a] =>
    let n := a * 0x10000
    [b64Char (n / 0x40000), b64Char (n / 0x1000 % 64), '=', '=']
  | [a, b] =>
    let n := a * 0x10000 + b * 0x100
    [b64Char (n / 0x40000), b64Char (n / 0x1000 % 64), b64Char (n / 0x40 % 64), '=']
  | a :: b :: c :: rest =>
    let n := a * 0x10000 + b * 0x100 + c
    b64Char (n / 0x40000) :: b64Char (n / 0x1000 % 64) :: b64Char (n / 0x40 % 64) ::
      b64Char (n % 64) :: b64Groups rest

/-- Embedding of `toBase64` applied to a byte sequence:
`window.btoa(toString(bytes, false))`. -/
def toBase64 (bytes : List Nat) : String :=
  ⟨b64Groups (bytes.map (· % 256))⟩

/-! ## SHA-1 (reference implementation, FIPS 180-4)

The repository's `hash(data, 'SHA-1')` delegates to the platform's
`window.crypto.subtle.digest`; this is the reference implementation the
handshake claim compares against.  Words are `Nat` reduced mod `2^32`. -/

/-- Left rotation of a 32-bit word. -/
def rotl32 (n x : Nat) : Nat :=
  ((x <<< n) ||| (x >>> (32 - n))) % 2 ^ 32

/-- Big-endian bytes (most significant first) of `x`, `n` bytes wide. -/
def beBytes : Nat → Nat → List Nat
  | 0, _ => []
  | n + 1, x => (x / 2 ^ (8 * n)) % 256 :: beBytes n x

/-- Merkle–Damgård padding: append `0x80`, zero bytes, and the 64-bit
big-endian bit length, reaching a multiple of 64 bytes. -/
def sha1Pad (msg : List Nat) : List Nat :=
  let len := msg.length
  let k := (64 + 55 - len % 64) % 64
  msg ++ [0x80] ++ List.replicate k 0 ++ beBytes 8 (8 * len)

/-- Big-endian 32-bit words of a byte list. -/
def bytesToWords : List Nat → List Nat
  | b0 :: b1 :: b2 :: b3 :: rest =>
    (b0 * 0x1000000 + b1 * 0x10000 + b2 * 0x100 + b3) :: bytesToWords rest
  | _ => []

/-- Split a list into 16-word blocks (fuel-driven so it reduces in the
kernel). -/
def chunks16 : Nat → List Nat → List (List Nat)
  | 0, _ => []
  | _ + 1, [] => []
  | fuel + 1, l => l.take 16 :: chunks16 fuel (l.drop 16)

/-- Message-schedule extension, most recent word first. -/
def sha1ScheduleRev : Nat → List Nat → List Nat
  | 0, acc => acc
  | n + 1, acc =>
    let next := rotl32 1 ((acc.getD 2 0) ^^^ (acc.getD 7 0) ^^^ (acc.getD 13 0) ^^^ (acc.getD 15 0))
    sha1ScheduleRev n (next :: acc)

/-- Full 80-word message schedule of a 16-word block. -/
def sha1Schedule (block : List Nat) : List Nat :=
  (sha1ScheduleRev 64 block.reverse).reverse

/-- Nonlinear round function and round constant. -/
def sha1FK (i b c d : Nat) : Nat × Nat :=
  if i < 20 then ((b &&& c) ||| ((2 ^ 32 - 1 - b % 2 ^ 32) &&& d), 0x5A827999)
  else if i < 40 then (b ^^^ c ^^^ d, 0x6ED9EBA1)
  else if i < 60 then ((b &&& c) ||| (b &&& d) ||| (c &&& d), 0x8F1BBCDC)
  else (b ^^^ c ^^^ d, 0xCA62C1D6)

/-- One compression round. -/
def sha1Round (st : Nat × Nat × Nat × Nat × Nat) (iw : Nat × Nat) :
    Nat × Nat × Nat × Nat × Nat :=
  let (a, b, c, d, e) := st
  let (i, w) := iw
  let (f, k) := sha1FK i b c d
  let temp := (rotl32 5 a + f + e + k + w) % 2 ^ 32
  (temp, a, rotl32 30 b, c, d)

/-- Compression of one 16-word block into the running state. -/
def sha1Compress (h : Nat × Nat × Nat × Nat × Nat) (block : List Nat) :
    Nat × Nat × Nat × Nat × Nat :=
  let (h0, h1, h2, h3, h4) := h
  let ws := sha1Schedule block
  let (a, b, c, d, e) := (((List.range 80).zip ws).foldl sha1Round (h0, h1, h2, h3, h4))
  ((h0 + a) % 2 ^ 32, (h1 + b) % 2 ^ 32, (h2 + c) % 2 ^ 32, (h3 + d) % 2 ^ 32,
    (h4 + e) % 2 ^ 32)

/-- SHA-1 digest (20 bytes) of a byte list. -/
def sha1 (msg : List Nat) : List Nat :=
  let padded := sha1Pad (msg.map (· % 256))
  let blocks := chunks16 padded.length (bytesToWords padded)
  let (h0, h1, h2, h3, h4) :=
    blocks.foldl sha1Compress (0x67452301, 0xEFCDAB89, 0x98BADCFE, 0x10325476, 0xC3D2E1F0)
  beBytes 4 h0 ++ beBytes 4 h1 ++ beBytes 4 h2 ++ beBytes 4 h3 ++ beBytes 4 h4

/-! ## Crypto wrapper (src/src/cwdtp/crypto.js)

`hash(data, 'SHA-1')` is `window.crypto.subtle.digest('SHA-1', new Uint8Array(data))`.
The connection passes a `Uint16Array` of char codes; `new Uint8Array(uint16s)`
converts *element-wise* (each value reduced mod 256), it does not reinterpret
the underlying bytes. -/

/-- Embedding of `crypto.hash(units, 'SHA-1')` for a `Uint16Array` argument. -/
def cryptoHash (units : List Nat) : List Nat :=
  sha1 (units.map (· % 256))

/-! ## Message framing codec (conn.js `_encodeMsg` / `_decodeMsg`)

JavaScript values exchanged through the codec are modelled by the mutual
family `JSVal` / `JSList` / `JSFields`.  Binary values carry their concrete
kind (`ArrayBuffer`, `DataView`, or the typed-array constructor), so "same
concrete kind" is constructor equality.  The two float typed-array kinds are
not modelled (floating point); the integer kinds cover the claims.  JS
numbers are modelled as `Int` (the claims use integral data only).

The codec pipeline in the source is
`JSON.stringify(envelope, replacer)` → `toBinary(text)` on encode, and
`toString(payload)` → `JSON.parse(text, reviver)` on decode.  The
`stringify`/`parse` text stage is the identity on plain JSON trees, so the
embedding works on trees directly: `encReplace` is the replacer applied
recursively (what `stringify` does), `decRevive` is the reviver applied
bottom-up (what `parse` does). -/

/-- Supported integer typed-array kinds (the `TYPED_ARRAY_TYPES` map without
the two float kinds). -/
inductive TAKind
  | int8 | uint8 | uint8clamped | int16 | uint16 | int32 | uint32
deriving DecidableEq

mutual
/-- JavaScript value: JSON primitives, arrays, plain objects, and the binary
kinds the codec recognizes. -/
inductive JSVal : Type
  | str (s : String)
  | num (n : Int)
  | bool (b : Bool)
  | null
  | arr (xs : JSList)
  | obj (fs : JSFields)
  | abuf (bytes : List Nat)
  | dview (bytes : List Nat)
  | tarr (k : TAKind) (elems : List Int)

/-- List of JavaScript values (spine of a JS array). -/
inductive JSList : Type
  | nil
  | cons (hd : JSVal) (tl : JSList)

/-- Fields of a plain JavaScript object, in insertion order. -/
inductive JSFields : Type
  | nil
  | cons (key : String) (val : JSVal) (tl : JSFields)
end

deriving instance DecidableEq for JSVal

deriving instance DecidableEq for JSList

deriving instance DecidableEq for JSFields

/-- Converts a `JSList` spine to a Lean list. -/
def JSList.toList : JSList → List JSVal
  | .nil => []
  | .cons x xs => x :: xs.toList

/-- Converts a Lean list to a `JSList` spine. -/
def JSList.ofList : List JSVal → JSList
  | [] => .nil
  | x :: xs => .cons x (JSList.ofList xs)

/-- Keys of an object's fields, in order. -/
def JSFields.keys : JSFields → List String
  | .nil => []
  | .cons k _ tl => k :: tl.keys

/-- First binding of a key (the objects built by the codec have unique
keys). -/
def JSFields.get : JSFields → String → Option JSVal
  | .nil, _ => none
  | .cons k v tl, key => if k = key then some v else tl.get key

/-- Truthiness of a JavaScript value (`NaN` is not modelled; every object,
array and binary value is truthy). -/
def jsTruthy : JSVal → Bool
  | .null => false
  | .bool b => b
  | .num n => n != 0
  | .str s => s ≠ ""
  | _ => true

/-- Coercion `ToNumber` as used when a revived `contents` element is fed to a
typed-array constructor.  The codec itself only produces numbers; booleans
and `null` coerce as in JS, anything else is modelled as 0 (JS would give
`NaN`, which the typed-array stores as 0). -/
def jsToInt : JSVal → Int
  | .num n => n
  | .bool true => 1
  | .bool false => 0
  | _ => 0

/-- Byte width of a typed-array kind. -/
def TAKind.width : TAKind → Nat
  | .int8 | .uint8 | .uint8clamped => 1
  | .int16 | .uint16 => 2
  | .int32 | .uint32 => 4

/-- Name tag produced by `val.constructor.name.toLowerCase()`. -/
def TAKind.tag : TAKind → String
  | .int8 => "int8array"
  | .uint8 => "uint8array"
  | .uint8clamped => "uint8clampedarray"
  | .int16 => "int16array"
  | .uint16 => "uint16array"
  | .int32 => "int32array"
  | .uint32 => "uint32array"

/-- Kind for a tag string, mirroring `val.type in TYPED_ARRAY_TYPES`. -/
def taKindOfTag (t : String) : Option TAKind :=
  if t = "int8array" then some .int8
  else if t = "uint8array" then some .uint8
  else if t = "uint8clampedarray" then some .uint8clamped
  else if t = "int16array" then some .int16
  else if t = "uint16array" then some .uint16
  else if t = "int32array" then some .int32
  else if t = "uint32array" then some .uint32
  else none

/-- Little-endian byte serialization of an element value, as stored in the
underlying `ArrayBuffer` of a typed array. -/
def leBytes : Nat → Nat → List Nat
  | 0, _ => []
  | w + 1, x => x % 256 :: leBytes w (x / 256)

/-- Bytes of the underlying buffer of a typed array
(`Array.from(new Uint8Array(val.buffer))` on the encode side). -/
def tarrBufBytes (k : TAKind) (elems : List Int) : List Nat :=
  elems.flatMap (fun n => leBytes k.width (n.emod (2 ^ (8 * k.width))).toNat)

/-- Conversion an element undergoes when stored into a typed array of kind
`k` (`ToInt8`/`ToUint8`/`ToUint8Clamp`/…, i.e. wrap-around, except clamping
for `Uint8ClampedArray`). -/
def TAKind.store (k : TAKind) (n : Int) : Int :=
  match k with
  | .uint8clamped => min 255 (max 0 n)
  | .uint8 => n.emod (2 ^ 8)
  | .uint16 => n.emod (2 ^ 16)
  | .uint32 => n.emod (2 ^ 32)
  | .int8 => (let m := n.emod (2 ^ 8); if m < 2 ^ 7 then m else m - 2 ^ 8)
  | .int16 => (let m := n.emod (2 ^ 16); if m < 2 ^ 15 then m else m - 2 ^ 16)
  | .int32 => (let m := n.emod (2 ^ 32); if m < 2 ^ 31 then m else m - 2 ^ 32)

/-- Tagged object the `JSON.stringify` replacer produces for a binary value:
`{ binary: true, type: <tag>, contents: [byte, ...] }`. -/
def binaryTagObj (tag : String) (contents : List Nat) : JSVal :=
  .obj (.cons "binary" (.bool true)
    (.cons "type" (.str tag)
      (.cons "contents" (.arr (JSList.ofList (contents.map fun b => .num (b : Int)))) .nil)))

mutual
/-- Replacer of `_encodeMsg`, applied recursively as `JSON.stringify` does:
binary values become tagged objects holding the bytes of their *underlying
buffer*; everything else is serialized structurally. -/
def encReplace : JSVal → JSVal
  | .abuf bytes => binaryTagObj "arraybuffer" bytes
  | .dview bytes => binaryTagObj "dataview" bytes
  | .tarr k elems => binaryTagObj k.tag (tarrBufBytes k elems)
  | .arr xs => .arr (encReplaceList xs)
  | .obj fs => .obj (encReplaceFields fs)
  | v => v

/-- Replacer mapped over an array. -/
def encReplaceList : JSList → JSList
  | .nil => .nil
  | .cons x xs => .cons (encReplace x) (encReplaceList xs)

/-- Replacer mapped over object fields. -/
def encReplaceFields : JSFields → JSFields
  | .nil => .nil
  | .cons k v tl => .cons k (encReplace v) (encReplaceFields tl)
end

/-- Elements of the revived `contents` field (`[]` when absent or not an
array; JS would produce an empty or zero-filled typed array for those
shapes, which the codec never emits). -/
def tagContents (fs : JSFields) : List JSVal :=
  match fs.get "contents" with
  | some (.arr xs) => xs.toList
  | _ => []

/-- Reviver step on an already-revived object: reconstructs a binary value
from a tagged object.  Mirrors the reviver body: `arraybuffer` and
`dataview` rebuild from the byte list via `new Uint8Array(contents)`; a
typed-array tag feeds `contents` to the constructor — *element-wise*, with
the store conversion of the kind, not as underlying bytes. -/
def reviveTag (fs : JSFields) : JSVal :=
  if jsTruthy ((fs.get "binary").getD .null) then
    match fs.get "type" with
    | some (.str t) =>
      if t = "arraybuffer" then
        .abuf ((tagContents fs).map fun v => ((jsToInt v).emod 256).toNat)
      else if t = "dataview" then
        .dview ((tagContents fs).map fun v => ((jsToInt v).emod 256).toNat)
      else
        match taKindOfTag t with
        | some k => .tarr k ((tagContents fs).map fun v => k.store (jsToInt v))
        | none => .obj fs
    | _ => .obj fs
  else .obj fs

mutual
/-- Reviver of `_decodeMsg`, applied bottom-up as `JSON.parse` does. -/
def decRevive : JSVal → JSVal
  | .arr xs => .arr (decReviveList xs)
  | .obj fs => reviveTag (decReviveFields fs)
  | v => v

/-- Reviver mapped over an array. -/
def decReviveList : JSList → JSList
  | .nil => .nil
  | .cons x xs => .cons (decRevive x) (decReviveList xs)

/-- Reviver mapped over object fields. -/
def decReviveFields : JSFields → JSFields
  | .nil => .nil
  | .cons k v tl => .cons k (decRevive v) (decReviveFields tl)
end

/-- Recognized protocol metadata keys (`VALID_PROTOCOL_META_KEYS`). -/
def VALID_PROTOCOL_META_KEYS : List String :=
  ["req_key", "res_key", "reason", "error", "cid"]

/-- Decoded envelope (`DecodedMsg`): `meta` is kept as the revived JS value,
`data` as the argument list. -/
structure Envelope where
  event : String
  meta : JSVal
  data : JSList
deriving DecidableEq

/-- Builds the object fields of a metadata record. -/
def metaFields : List (String × JSVal) → JSFields
  | [] => .nil
  | (k, v) :: rest => .cons k v (metaFields rest)

/-- Embedding of `WSConn#_encodeMsg(event, meta, ...data)`: validates the
metadata keys, then serializes `{event, meta, data}` through the replacer.
The final `toBinary(json, false)` text/UTF-16 stage is the identity on the
tree and is left implicit. -/
def encodeMsg (event : String) (meta : List (String × JSVal)) (data : List JSVal) :
    Except JsError JSVal :=
  if ¬ (meta.map Prod.fst).all (VALID_PROTOCOL_META_KEYS.contains ·) then
    .error (.typeError "Invalid protocol metadata!")
  else
    .ok (encReplace (.obj (.cons "event" (.str event)
      (.cons "meta" (.obj (metaFields meta))
        (.cons "data" (.arr (JSList.ofList data)) .nil)))))

/-- Property lookup `parsed.<key>`: only plain objects yield a value;
everything else gives `undefined` (`none`). -/
def jsGetProp (v : JSVal) (key : String) : Option JSVal :=
  match v with
  | .obj fs => fs.get key
  | _ => none

/-- Test for `typeof v === 'object'` on a non-null value (arrays, plain
objects and the binary values all qualify). -/
def jsIsObjectType : JSVal → Bool
  | .obj _ | .arr _ | .abuf _ | .dview _ | .tarr _ _ => true
  | _ => false

/-- Enumerable own keys (`Object.keys`): object fields in order; index
strings for arrays and typed arrays; nothing for `ArrayBuffer`/`DataView`. -/
def jsKeys : JSVal → List String
  | .obj fs => fs.keys
  | .arr xs => (List.range xs.toList.length).map toString
  | .tarr _ es => (List.range es.length).map toString
  | _ => []

/-- Decode errors: plain `TypeError`s, and the `TypeError` carrying
`err.code = 'EINVALMETA'` for an unrecognized metadata key. -/
inductive DecodeError
  | typeError (msg : String)
  | typeErrorCoded (msg code : String)
deriving DecidableEq

/-- Embedding of `WSConn#_decodeMsg(msg)` for an already-reassembled payload
tree: runs the reviver, then the structure validation, in source order. -/
def decodeMsg (msg : JSVal) : Except DecodeError Envelope :=
  let parsed := decRevive msg
  if ¬ jsTruthy parsed then .error (.typeError "Data is non-existent!")
  else
    match jsGetProp parsed "event" with
    | some (.str event) =>
      let metaV := (jsGetProp parsed "meta").getD .null
      if ¬ jsTruthy metaV ∨ ¬ jsIsObjectType metaV then
        .error (.typeError "Metadata does not exist!")
      else if ¬ (jsKeys metaV).all (VALID_PROTOCOL_META_KEYS.contains ·) then
        .error (.typeErrorCoded "Invalid protocol metadata!" "EINVALMETA")
      else
        match jsGetProp parsed "data" with
        | some (.arr xs) =>
          if ¬ jsTruthy (.arr xs) then .error (.typeError "Data is not an array!")
          else .ok ⟨event, metaV, xs⟩
        | _ => .error (.typeError "Data is not an array!")
    | _ => .error (.typeError "Event field does not exist!")

/-! ## Connection state machine (conn.js `WSConn`)

The `WSConn` instance fields, the local timer variables captured by the
handshake and close closures, and the registered internal listeners are
modelled as one record.  Timers are `Option Nat` handles (armed = `some id`,
ids drawn from `nextTimer`); real durations are irrelevant to the claims —
only which timers are armed and what their callbacks do.  Side effects are
recorded in append-only histories: `sent` (frames passed to `ws.send`),
`closes` (calls to `ws.close`), and `events` (everything `_emit`ted). -/

/-- Outbound frame as handed to `ws.send` (event name and protocol
metadata; the encoded bytes add nothing for the claims). -/
structure Frame where
  event : String
  meta : List (String × JSVal)
deriving DecidableEq

/-- Events emitted through the `EventEmitter` (`this._emit`). -/
inductive EmitEv
  | messageEv
  | errorEv (msg : String)
  | disconnectingEv
  | disconnectEv
  | connectEv
  | pingTimeoutEv
  | abortingHandshakeEv (reason : String)
  | internalEv (name : String)
  | appEv (name : String)
deriving DecidableEq

/-- Whether an emitted event is an `error` event. -/
def EmitEv.isError : EmitEv → Bool
  | .errorEv _ => true
  | _ => false

/-- State of a client-mode `WSConn` (after the WebSocket opened; the dial
itself is outside the model). -/
structure ConnState where
  id : Option JSVal
  isAlive : Bool
  connected : Bool
  disconnecting : Bool
  abortedHandshake : Bool
  pingTimeout : Option Nat
  handshakeTimeout : Option Nat
  closeTimeout : Option Nat
  pendingClose : Option (Int × String)
  expected : Option String
  helloListener : Bool
  wsOpen : Bool
  nextTimer : Nat
  sent : List Frame
  closes : List (Int × String)
  events : List EmitEv
deriving DecidableEq

/-- Freshly constructed client connection with an open transport. -/
def mkConn : ConnState :=
  ⟨none, false, false, false, false, none, none, none, none, none, false, true, 0, [], [], []⟩

/-- Appends an emitted event to the history. -/
def emitEv (e : EmitEv) (s : ConnState) : ConnState :=
  { s with events := s.events ++ [e] }

/-- Appends a sent frame to the history. -/
def sendFrame (f : Frame) (s : ConnState) : ConnState :=
  { s with sent := s.sent ++ [f] }

/-- Embedding of `WSConn#_onClose`: clear the heartbeat timer, drop the
liveness flags, emit `disconnect`. -/
def onCloseCommon (s : ConnState) : ConnState :=
  emitEv .disconnectEv { s with pingTimeout := none, isAlive := false, connected := false }

/-- Embedding of `WSConn#disconnect(force, code, reason, wasError)`.  Forced:
skip the closing handshake, run `_onClose` and close the WebSocket.
Graceful: arm the close-handshake timer, send the `cwdtp::close` frame and
register the `close-ack` listener (which captures `code`/`reason`). -/
def disconnect (force : Bool) (code : Int) (reason : String) (wasError : Bool)
    (s : ConnState) : ConnState :=
  let s := emitEv .disconnectingEv { s with disconnecting := true }
  if force then
    let s := onCloseCommon s
    { s with closes := s.closes ++ [(code, reason)], wsOpen := false }
  else
    let s := { s with closeTimeout := some s.nextTimer, nextTimer := s.nextTimer + 1 }
    let s := sendFrame ⟨"cwdtp::close", [("error", .bool wasError), ("reason", .str reason)]⟩ s
    { s with pendingClose := some (code, reason) }

/-- Embedding of `WSConn#clientHeartbeat`: clear the previous heartbeat
timer and arm a fresh one (the single `pingTimeout` field *is* the
"at most one heartbeat timer" invariant). -/
def clientHeartbeat (s : ConnState) : ConnState :=
  { s with pingTimeout := some s.nextTimer, nextTimer := s.nextTimer + 1 }

/-- Embedding of `WSConn#pong`. -/
def pong (s : ConnState) : ConnState :=
  sendFrame ⟨"cwdtp::pong", []⟩ s

/-- Listener for inbound `cwdtp::ping` (registered in `_init`):
`this.clientHeartbeat(); this.pong()`. -/
def onPing (s : ConnState) : ConnState :=
  pong (clientHeartbeat s)

/-- Firing of the armed heartbeat timer: force-disconnect with the
ping-timeout reason, then emit `pingTimeout`.  A timer can fire only while
armed, and firing spends it. -/
def pingTimeoutFire (s : ConnState) : ConnState :=
  match s.pingTimeout with
  | none => s
  | some _ =>
    let s := { s with pingTimeout := none }
    let s := disconnect true 4004 "Ping timeout" true s
    emitEv .pingTimeoutEv s

/-- Firing of the armed close-handshake timer: `ws.close(4003, ...)`,
`_onClose`, and an `error` event. -/
def closeTimeoutFire (s : ConnState) : ConnState :=
  match s.closeTimeout with
  | none => s
  | some _ =>
    let s := { s with closeTimeout := none }
    let s := { s with closes := s.closes ++ [(4003, "Close handshake timeout")], wsOpen := false }
    let s := onCloseCommon s
    emitEv (.errorEv "Closing handshake timed out") s

/-- Listener for `cwdtp::close-ack` (registered by a graceful
`disconnect`): cancel the close timer, deregister itself, `_onClose`, close
the WebSocket with the captured code and reason. -/
def onCloseAck (s : ConnState) : ConnState :=
  match s.pendingClose with
  | none => s
  | some (code, reason) =>
    let s := { s with closeTimeout := none, pendingClose := none }
    let s := onCloseCommon s
    { s with closes := s.closes ++ [(code, reason)], wsOpen := false }

/-- Embedding of `WSConn#abortHandshake(reason)`: emit `abortingHandshake`,
run a *graceful* `disconnect(false, 4000, reason, true)`, set the aborted
flag. -/
def abortHandshake (reason : String) (s : ConnState) : ConnState :=
  let s := emitEv (.abortingHandshakeEv reason) s
  let s := disconnect false 4000 reason true s
  { s with abortedHandshake := true }

/-- Fixed protocol salt appended to the request key. -/
def SALT : String := "FJcod23c-aodDJf-302-D38cadjeC2381-F8fad-AJD3"

/-- Expected response key as `doClientHandshake` computes it:
`toBase64(await crypto.hash(toBinary(reqKey + SALT, false), 'SHA-1'))`. -/
def computeExpected (reqKey : String) : String :=
  toBase64 (cryptoHash (toBinary (reqKey ++ SALT)))

/-- Start of `doClientHandshake` for a given request key: compute the
expected response key, send `cwdtp::client-hello`, arm the handshake
timeout, register the `server-hello` listener. -/
def handshakeStart (reqKey : String) (s : ConnState) : ConnState :=
  let s := { s with expected := some (computeExpected reqKey) }
  let s := sendFrame ⟨"cwdtp::client-hello", [("req_key", .str reqKey)]⟩ s
  let s := { s with handshakeTimeout := some s.nextTimer, nextTimer := s.nextTimer + 1 }
  { s with helloListener := true }

/-- Firing of the armed handshake timer: force-disconnect, emit the
`EHSTIMEOUT` error, set the aborted flag. -/
def handshakeTimeoutFire (s : ConnState) : ConnState :=
  match s.handshakeTimeout with
  | none => s
  | some _ =>
    let s := { s with handshakeTimeout := none }
    let s := disconnect true 4002 "Handshake timed out" true s
    let s := emitEv (.errorEv "Handshake timeout") s
    { s with abortedHandshake := true }

/-- JavaScript strict equality of a value against a string (the
`msg.meta.res_key !== expected` comparison). -/
def jsStrEq (v : JSVal) (e : String) : Bool :=
  match v with
  | .str x => x = e
  | _ => false

/-- Listener for `cwdtp::server-hello` (registered by `doClientHandshake`):
clear the handshake timer; on a present response key, compare it with the
expected key, require a connection id, and either connect or abort. -/
def onServerHello (meta : JSVal) (s : ConnState) : ConnState :=
  let s := { s with handshakeTimeout := none }
  let resKey := (jsGetProp meta "res_key").getD .null
  if jsTruthy meta ∧ jsTruthy resKey then
    match s.expected with
    | some e =>
      if ¬ jsStrEq resKey e then abortHandshake "Invalid response key!" s
      else
        let cid := (jsGetProp meta "cid").getD .null
        if ¬ jsTruthy cid then abortHandshake "No connection ID received!" s
        else emitEv .connectEv { s with id := some cid, connected := true }
    | none => s
  else abortHandshake "Invalid server handshake response!" s

/-- Listener for inbound `cwdtp::close` (registered in `_init`): emit
`disconnecting`; when a string reason is present, optionally surface it as
an error, send `cwdtp::close-ack` and run `_onClose`. -/
def onCloseFrame (meta : JSVal) (s : ConnState) : ConnState :=
  let s := emitEv .disconnectingEv s
  match jsGetProp meta "reason" with
  | some (.str reason) =>
    let s := if jsTruthy ((jsGetProp meta "error").getD .null) then emitEv (.errorEv reason) s
      else s
    let s := sendFrame ⟨"cwdtp::close-ack", []⟩ s
    onCloseCommon s
  | _ => s

/-- Embedding of the public `WSConn#emit(event, ...data)` (the outbound send
operation): throws when not connected, otherwise encodes and writes one
frame. -/
def connEmit (event : String) (data : List JSVal) (s : ConnState) :
    Except JsError ConnState :=
  if ¬ s.connected then .error (.error "WSConn is not connected!")
  else
    match encodeMsg event [] data with
    | .error e => .error e
    | .ok _ => .ok (sendFrame ⟨event, []⟩ s)

/-- Message of a decode error, for the `_onMessage` error report. -/
def DecodeError.message : DecodeError → String
  | .typeError m => m
  | .typeErrorCoded m _ => m

/-- Test for `event.startsWith('cwdtp::')` (spelled out on the character
list so that it reduces in the kernel). -/
def strStartsWith (s p : String) : Bool :=
  s.data.take p.data.length == p.data

/-- Embedding of `WSConn#_onMessage`: emit `message`; decode, catching any
decode error as a non-fatal `error` event; dispatch `cwdtp::`-namespaced
events to the registered internal listeners, spread anything else to the
application. -/
def onMessage (msg : JSVal) (s : ConnState) : ConnState :=
  let s := emitEv .messageEv s
  match decodeMsg msg with
  | .error e => emitEv (.errorEv ("Failed to parse message! Error is: " ++ e.message)) s
  | .ok env =>
    if strStartsWith env.event "cwdtp::" then
      let s := emitEv (.internalEv env.event) s
      if env.event = "cwdtp::ping" then onPing s
      else if env.event = "cwdtp::close" then onCloseFrame env.meta s
      else if env.event = "cwdtp::server-hello" then
        if s.helloListener then onServerHello env.meta s else s
      else if env.event = "cwdtp::close-ack" then onCloseAck s
      else s
    else emitEv (.appEv env.event) s

/-! ## Prediction and reconciliation engine (player.js `Player`)

Coordinates, speeds and timestamps are `ℚ`, so `Math.floor` is a genuine
operation.  The 2D vector class (`physics/vector2d.js`) and the clamping
base class (`physics/bound-entity.js`) are imported by `player.js` but their
sources are not part of this repository snapshot; their operations are
modelled from the design document (positions/velocities are plain 2D
vectors; positions are clamped into the world bounds). -/

/-- Modelled from the spec: the repository's `Vector2D` value — the design
document's plain 2D vector over game coordinates (`vector2d.js` is not in
the snapshot; only its callers are). -/
structure Vec where
  x : ℚ
  y : ℚ
deriving DecidableEq

/-- Modelled from the spec: `Vector2D.zero()`. -/
def Vec.zero : Vec := ⟨0, 0⟩

/-- Modelled from the spec: `Vector2D#add` (componentwise vector addition;
the source mutates in place and is used for its result here). -/
def Vec.add (a b : Vec) : Vec := ⟨a.x + b.x, a.y + b.y⟩

/-- Modelled from the spec: `Vector2D.scale(v, s)` (`velocity * deltaTime`
in the integration step). -/
def Vec.scale (v : Vec) (s : ℚ) : Vec := ⟨v.x * s, v.y * s⟩

/-- Modelled from the spec: `Vector2D.floorAxes(v)` (`Math.floor` on each
axis, as the name its callers use indicates). -/
def Vec.floorAxes (v : Vec) : Vec := ⟨(v.x.floor : ℚ), (v.y.floor : ℚ)⟩

/-- Modelled from the spec: `Vector2D.fromObject` (copy a plain `{x, y}`
record into a vector). -/
def Vec.fromObject (v : Vec) : Vec := ⟨v.x, v.y⟩

/-- Modelled from the spec: the world bounds of `bound-entity.js`
(`bound-entity.js` is not in the snapshot). -/
structure Bounds where
  minX : ℚ
  maxX : ℚ
  minY : ℚ
  maxY : ℚ
deriving DecidableEq

/-- Clamp of one coordinate into `[lo, hi]`, written with explicit
comparisons so it evaluates in the kernel. -/
def clampQ (lo hi x : ℚ) : ℚ :=
  if x < lo then lo else if hi < x then hi else x

/-- Modelled from the spec: `BoundEntity#boundToBounds` — "clamp position
into world bounds", componentwise. -/
def boundTo (b : Bounds) (v : Vec) : Vec :=
  ⟨clampQ b.minX b.maxX v.x, clampQ b.minY b.maxY v.y⟩

/-- Direction flags of one input (`DirectionState`): four independent
booleans. -/
structure DirectionState where
  up : Bool
  down : Bool
  left : Bool
  right : Bool
deriving DecidableEq

/-- Player input record (`PlayerInput`). -/
structure PlayerInput where
  timestamp : ℚ
  inputNum : Nat
  direction : DirectionState
deriving DecidableEq

/-- Client-side `Player` state (the fields exercised by the claims). -/
structure Player where
  speed : ℚ
  position : Vec
  velocity : Vec
  worldBounds : Bounds
  lastInputProcessTime : ℚ
  lastUpdateTime : ℚ
  unprocessedInputs : List PlayerInput
deriving DecidableEq

/-- Embedding of `Player#_getVelocity` (identical logic in the ECS systems
module `_getVelocity`): `up` is tested before `down` in an `if`/`else if`,
and `left` before `right`, so `up` and `left` win when both flags of an
axis are set; the two axis contributions are added with no
normalization. -/
def getVelocity (speed : ℚ) (d : DirectionState) : Vec :=
  let velocity := Vec.zero
  let velocity :=
    if d.up then velocity.add ⟨0, -speed⟩
    else if d.down then velocity.add ⟨0, speed⟩
    else velocity
  if d.left then velocity.add ⟨-speed, 0⟩
  else if d.right then velocity.add ⟨speed, 0⟩
  else velocity

/-- Embedding of `Player#_update(deltaTime)`:
`position.add(floorAxes(scale(velocity, deltaTime)));
this.boundToBounds()`. -/
def Player.update (p : Player) (deltaTime : ℚ) : Player :=
  { p with position :=
      boundTo p.worldBounds (p.position.add (Vec.floorAxes (p.velocity.scale deltaTime))) }

/-- Authoritative per-player snapshot (`PlayerStats`): position, velocity
and the server's input watermark. -/
structure PlayerStats where
  position : Vec
  velocity : Vec
  lastProcessedInput : Nat

/-- Reconciliation loop of `acceptAuthoritarianState` over the (local copy
of the) input queue: inputs at or below the watermark are dropped, advancing
`lastInputProcessTime`; later inputs are replayed through `updateVelocity`
and `_update` with `pending.timestamp - lastInputProcessTime` as the delta.
The source iterates the spliced-off local array with an index and in-place
`splice` removals, which visits the elements in order exactly as this fold
does. -/
def acceptLoop (lpi : Nat) : Player → List PlayerInput → Player
  | p, [] => p
  | p, pending :: rest =>
    if pending.inputNum ≤ lpi then
      acceptLoop lpi { p with lastInputProcessTime := pending.timestamp } rest
    else
      let p := { p with velocity := getVelocity p.speed pending.direction }
      let deltaTime := pending.timestamp - p.lastInputProcessTime
      let p := { p with lastInputProcessTime := pending.timestamp }
      acceptLoop lpi (p.update deltaTime) rest

/-- Embedding of `Player#acceptAuthoritarianState(state)`: overwrite
position and velocity from the snapshot, splice the *entire* queue into a
local array (`this.unprocessedInputs.splice(0)` leaves the field empty), and
run the reconciliation loop on that local copy.  The still-pending inputs
survive only in the local array — the source never pushes them back, so the
queue stays empty. -/
def acceptAuthoritarianState (state : PlayerStats) (p : Player) : Player :=
  let queue := p.unprocessedInputs
  acceptLoop state.lastProcessedInput
    { p with
      position := Vec.fromObject state.position
      velocity := Vec.fromObject state.velocity
      unprocessedInputs := [] }
    queue

/-! ## Concrete fixtures used by witnesses and counterexamples -/

/-- Up-pressed direction flags. -/
def dirUp : DirectionState := ⟨true, false, false, false⟩

/-- Five queued inputs with increasing sequence numbers and timestamps. -/
def c2i1 : PlayerInput := ⟨100, 1, dirUp⟩

/-- Input number 2 of the reconciliation fixture. -/
def c2i2 : PlayerInput := ⟨110, 2, dirUp⟩

/-- Input number 3 of the reconciliation fixture. -/
def c2i3 : PlayerInput := ⟨120, 3, dirUp⟩

/-- Input number 4 of the reconciliation fixture. -/
def c2i4 : PlayerInput := ⟨130, 4, dirUp⟩

/-- Input number 5 of the reconciliation fixture. -/
def c2i5 : PlayerInput := ⟨140, 5, dirUp⟩

/-- Player with the five-input queue of the reconciliation fixture. -/
def c2player : Player :=
  ⟨1, ⟨0, 0⟩, ⟨0, 0⟩, ⟨0, 1000, 0, 1000⟩, 0, 0, [c2i1, c2i2, c2i3, c2i4, c2i5]⟩

/-- Authoritative snapshot with watermark 3. -/
def c2snap : PlayerStats := ⟨⟨50, 60⟩, ⟨0, 0⟩, 3⟩

/-- Server-hello metadata carrying a wrong response key. -/
def c3wrongHello : JSVal :=
  .obj (.cons "res_key" (.str "wrongkey") (.cons "cid" (.str "c1") .nil))

/-- Connection state mid-handshake, as `doClientHandshake` leaves it for a
fixed concrete request key. -/
def c3state : ConnState := handshakeStart "AAAAAAAAAAA=" mkConn

/-- Connected state with an armed heartbeat timer (heartbeat fixture). -/
def c5state : ConnState :=
  { mkConn with connected := true, pingTimeout := some 0, nextTimer := 1 }

/-- State waiting in the graceful-close handshake (close-ack fixture). -/
def c7closing : ConnState :=
  { mkConn with pendingClose := some (4000, "bye"), closeTimeout := some 5 }

/-- State with all three timers armed (forced-teardown fixture). -/
def c7armed : ConnState :=
  { mkConn with pingTimeout := some 2, handshakeTimeout := some 3, closeTimeout := some 5 }

/-! ## Theorems -/

/-- Core `Rat.floor` agrees with the floor of the `FloorRing ℚ` instance
(which Mathlib builds from it). -/
theorem ratFloor_intFloor (q : ℚ) : (Rat.floor q : ℤ) = ⌊q⌋ := rfl

/-- Magnitude of a `(±s, ±s)` vector is `√2 · s`. -/
theorem sqrt_two_sq_add_sq (s : ℝ) (h : 0 ≤ s) :
    Real.sqrt (s ^ 2 + s ^ 2) = Real.sqrt 2 * s := by
  rw [← two_mul, Real.sqrt_mul (by norm_num), Real.sqrt_sq h]

/-- C6: whenever the connection is not `Open` (`connected = false` — before
the handshake has completed, or after `_onClose` / an abort reset the flag),
`WSConn#emit` throws the "not connected" error, so the call fails fast and
no frame reaches the transport; and every close path (`_onClose`) does reset
`connected` to `false`. -/
theorem C6_emit_fails_fast_when_not_connected :
    (∀ (s : ConnState) (event : String) (data : List JSVal),
      s.connected = false →
        connEmit event data s = .error (.error "WSConn is not connected!")) ∧
    (∀ s : ConnState, (onCloseCommon s).connected = false) := by
  constructor
  · intro s event data h
    simp [connEmit, h]
  · intro s
    simp [onCloseCommon, emitEv]

/-- C6 witness: a freshly constructed connection is not connected, and
`emit` on it throws. -/
theorem C6_witness :
    connEmit "foo" [.str "bar"] mkConn = .error (.error "WSConn is not connected!") :=
  C6_emit_fails_fast_when_not_connected.1 mkConn "foo" [.str "bar"] rfl

/-- C9: `toString(toBinary(s))` recovers `s` in the default char-code mode,
for every string whose code points fit in one 16-bit code unit. -/
theorem C9_toString_toBinary_roundtrip (s : String)
    (h : ∀ c ∈ s.data, c.toNat < 0x10000) :
    bufToString (toBinary s) = s := by
  cases s with
  | mk data =>
    simp only [bufToString, toBinary, utf16Units]
    congr 1
    induction data with
    | nil => rfl
    | cons c cs ih =>
      have hc : c.toNat < 0x10000 := h c (by simp)
      have hcs : ∀ x ∈ cs, x.toNat < 0x10000 := fun x hx => h x (by simp [hx])
      simp only [List.flatMap_cons, charUnits, if_pos hc, List.singleton_append,
        List.map_cons, Nat.mod_eq_of_lt hc, Char.ofNat_toNat, List.cons.injEq, true_and]
      exact ih hcs

/-- C9 witness: a concrete BMP string round-trips. -/
theorem C9_witness : bufToString (toBinary "Colonial Wars!") = "Colonial Wars!" :=
  C9_toString_toBinary_roundtrip "Colonial Wars!" (by decide)

/-- C10: in `_getVelocity`, `up` wins over `down` and `left` over `right`
(both-set inputs get the `-speed` component); a diagonal input has
components `(±speed, ±speed)` with no normalization, so its magnitude is
`√2 · speed`, while an axis-aligned input has magnitude `speed`. -/
theorem C10_velocity_precedence (speed : ℚ) (h : 0 ≤ speed) :
    (∀ d : DirectionState, d.up = true → d.down = true →
      (getVelocity speed d).y = -speed) ∧
    (∀ d : DirectionState, d.left = true → d.right = true →
      (getVelocity speed d).x = -speed) ∧
    (∀ d : DirectionState, (d.up || d.down) = true → (d.left || d.right) = true →
      ((getVelocity speed d).x = speed ∨ (getVelocity speed d).x = -speed) ∧
      ((getVelocity speed d).y = speed ∨ (getVelocity speed d).y = -speed) ∧
      Real.sqrt (((getVelocity speed d).x : ℝ) ^ 2 + ((getVelocity speed d).y : ℝ) ^ 2) =
        Real.sqrt 2 * (speed : ℝ)) ∧
    (∀ d : DirectionState, (d.up || d.down) = true → (d.left || d.right) = false →
      Real.sqrt (((getVelocity speed d).x : ℝ) ^ 2 + ((getVelocity speed d).y : ℝ) ^ 2) =
        (speed : ℝ)) := by
  have hR : (0 : ℝ) ≤ (speed : ℝ) := by exact_mod_cast h
  have key : ∀ a b : ℚ, (a = speed ∨ a = -speed) → (b = speed ∨ b = -speed) →
      Real.sqrt ((a : ℝ) ^ 2 + (b : ℝ) ^ 2) = Real.sqrt 2 * (speed : ℝ) := by
    rintro a b (rfl | rfl) (rfl | rfl) <;> push_cast <;>
      (try simp only [neg_sq]) <;> exact sqrt_two_sq_add_sq _ hR
  have key0 : ∀ a b : ℚ, a = 0 → (b = speed ∨ b = -speed) →
      Real.sqrt ((a : ℝ) ^ 2 + (b : ℝ) ^ 2) = (speed : ℝ) := by
    rintro a b rfl (rfl | rfl) <;> push_cast <;> (try norm_num [neg_sq]) <;>
      exact Real.sqrt_sq hR
  refine ⟨?_, ?_, ?_, ?_⟩
  · rintro ⟨u, dn, l, r⟩ hu hd
    cases u <;> cases dn <;> cases l <;> cases r <;>
      first
        | exact absurd hu (by decide)
        | exact absurd hd (by decide)
        | simp [getVelocity, Vec.add, Vec.zero]
  · rintro ⟨u, dn, l, r⟩ hl hr
    cases u <;> cases dn <;> cases l <;> cases r <;>
      first
        | exact absurd hl (by decide)
        | exact absurd hr (by decide)
        | simp [getVelocity, Vec.add, Vec.zero]
  · rintro ⟨u, dn, l, r⟩ hv hh
    cases u <;> cases dn <;> cases l <;> cases r <;>
      first
        | exact absurd hv (by decide)
        | exact absurd hh (by decide)
        | refine ⟨by simp [getVelocity, Vec.add, Vec.zero],
            by simp [getVelocity, Vec.add, Vec.zero], ?_⟩
    all_goals apply key <;> simp [getVelocity, Vec.add, Vec.zero]
  · rintro ⟨u, dn, l, r⟩ hv hh
    cases u <;> cases dn <;> cases l <;> cases r <;>
      first
        | exact absurd hv (by decide)
        | exact absurd hh (by decide)
        | (apply key0 <;> simp [getVelocity, Vec.add, Vec.zero])

/-- C10 witness: concrete inputs at speed 5 — up+down gives `-5` vertically,
left+right gives `-5` horizontally, and the up-left diagonal has magnitude
`√2 · 5`. -/
theorem C10_witness :
    (getVelocity 5 ⟨true, true, false, false⟩).y = -5 ∧
    (getVelocity 5 ⟨false, false, true, true⟩).x = -5 ∧
    Real.sqrt (((getVelocity 5 ⟨true, false, true, false⟩).x : ℝ) ^ 2 +
        ((getVelocity 5 ⟨true, false, true, false⟩).y : ℝ) ^ 2) =
      Real.sqrt 2 * ((5 : ℚ) : ℝ) :=
  ⟨(C10_velocity_precedence 5 (by norm_num)).1 _ rfl rfl,
    (C10_velocity_precedence 5 (by norm_num)).2.1 _ rfl rfl,
    ((C10_velocity_precedence 5 (by norm_num)).2.2.1 _ (by decide) (by decide)).2.2⟩

/-- Copy-loop invariant of `concatBuffers`: started on a prefix already
filled and a zero block of the summed remaining length, the loop succeeds
and appends each buffer's underlying bytes in argument order (for views
whose length equals their buffer's length). -/
theorem concatCopyLoop_join (st : Store) :
    ∀ (bs : List BufView) (pfx : List Nat) (k : Nat),
      (∀ b ∈ bs, b.byteLength = (wholeBufBytes st b).length) →
      (bs.map BufView.byteLength).sum = k →
      concatCopyLoop st (pfx ++ List.replicate k 0) pfx.length bs =
        .ok (pfx ++ bs.flatMap (wholeBufBytes st)) := by
  intro bs
  induction bs with
  | nil =>
    intro pfx k _ hk
    simp only [List.map_nil, List.sum_nil] at hk
    subst hk
    simp [concatCopyLoop]
  | cons b bs ih =>
    intro pfx k hb hk
    have hlen : b.byteLength = (wholeBufBytes st b).length := hb b (by simp)
    have hk' : b.byteLength + (bs.map BufView.byteLength).sum = k := by
      simpa using hk
    have hguard : ¬ (pfx ++ List.replicate k 0).length <
        pfx.length + (wholeBufBytes st b).length := by
      simp only [List.length_append, List.length_replicate]
      omega
    have hcopy : copyInto (pfx ++ List.replicate k 0) pfx.length (wholeBufBytes st b) =
        (pfx ++ wholeBufBytes st b) ++
          List.replicate (k - (wholeBufBytes st b).length) 0 := by
      simp only [copyInto, List.take_left, List.drop_append,
        List.drop_replicate, List.append_assoc]
    simp only [concatCopyLoop, if_neg hguard, hcopy]
    have hoff : pfx.length + b.byteLength = (pfx ++ wholeBufBytes st b).length := by
      simp [hlen]
    rw [hoff, ih (pfx ++ wholeBufBytes st b) (k - (wholeBufBytes st b).length)
      (fun x hx => hb x (by simp [hx])) (by omega)]
    simp

/-- C8 counterexample: with exactly one buffer, `concatBuffers` does *not*
return a copy — the result is a view over the same underlying buffer
(`bufId` 0 again), and writing `9` through the result changes the
original's memory from `[1, 2, 3]` to `[9, 2, 3]`. -/
theorem C8_counterexample :
    concatBuffers ⟨[[1, 2, 3]]⟩ [⟨0, 0, 3, false⟩] = .ok (⟨[[1, 2, 3]]⟩, ⟨0, 0, 3, false⟩) ∧
    viewBytes ⟨[[1, 2, 3]]⟩ ⟨0, 0, 3, false⟩ = [1, 2, 3] ∧
    viewBytes (writeViewByte ⟨[[1, 2, 3]]⟩ ⟨0, 0, 3, false⟩ 0 9) ⟨0, 0, 3, false⟩ =
      [9, 2, 3] :=
  ⟨rfl, by decide, by decide⟩

/-- C8 (amended): zero buffers is an error; exactly one (non-`DataView`)
buffer returns a fresh `Uint8Array` view *aliasing* the input's underlying
`ArrayBuffer` (no copy — the store is unchanged and the result carries the
same `bufId`); `N > 1` buffers allocate exactly the summed byte length and
copy the buffers' contents in argument order (stated for views that span
their whole buffer, as every view the codec passes in does). -/
theorem C8_concatBuffers (st : Store) :
    (concatBuffers st [] =
      .error (.typeError "Cannot read properties of undefined (reading 'buffer')")) ∧
    (∀ b : BufView, b.isDataView = false →
      concatBuffers st [b] = .ok (st, ⟨b.bufId, 0, (wholeBufBytes st b).length, false⟩)) ∧
    (∀ bs : List BufView, 2 ≤ bs.length →
      (∀ b ∈ bs, b.isDataView = false) →
      (∀ b ∈ bs, b.byteLength = (wholeBufBytes st b).length) →
      concatBuffers st bs =
        .ok (⟨st.bufs ++ [bs.flatMap (wholeBufBytes st)]⟩,
          ⟨st.bufs.length, 0, (bs.map BufView.byteLength).sum, false⟩)) := by
  refine ⟨by simp [concatBuffers], ?_, ?_⟩
  · intro b hb
    simp [concatBuffers, hb]
  · intro bs hlen hdv hwhole
    match bs, hlen with
    | b1 :: b2 :: rest, _ =>
      have hall : (b1 :: b2 :: rest).all (fun b => !b.isDataView) = true := by
        simp only [List.all_eq_true]
        intro b hbmem
        simp [hdv b hbmem]
      have hloop := concatCopyLoop_join st (b1 :: b2 :: rest) []
        (((b1 :: b2 :: rest).map BufView.byteLength).sum) hwhole rfl
      simp only [List.nil_append, List.length_nil, List.map_cons, List.sum_cons] at hloop
      simp [concatBuffers, hall, hloop]

/-- C8 witness: two whole-buffer views of lengths 2 and 1 concatenate into a
newly allocated 3-byte buffer holding `[1, 2, 3]`. -/
theorem C8_witness :
    concatBuffers ⟨[[1, 2], [3]]⟩ [⟨0, 0, 2, false⟩, ⟨1, 0, 1, false⟩] =
      .ok (⟨[[1, 2], [3], [1, 2, 3]]⟩, ⟨2, 0, 3, false⟩) := by
  have h := (C8_concatBuffers ⟨[[1, 2], [3]]⟩).2.2
    [⟨0, 0, 2, false⟩, ⟨1, 0, 1, false⟩] (by decide) (by decide) (by decide)
  simpa using h

end CW

namespace CW

/-- C4: `_encodeMsg` throws the typed `TypeError` as soon as any meta key
lies outside the recognized set; `_decodeMsg` of an inbound frame whose
revived meta object carries an unrecognized key raises the distinct
`TypeError` coded `EINVALMETA` (a different constructor from every other
decode error, hence catchable and distinguishable); and `_onMessage` is
total on malformed frames — the decode error is caught, surfaced as a
single `error` event after the `message` event, the frame is dropped, and
every connection field other than the emit history is unchanged. -/
theorem C4_malformed_meta :
    (∀ (event : String) (meta : List (String × JSVal)) (data : List JSVal),
      ((meta.map Prod.fst).all (VALID_PROTOCOL_META_KEYS.contains ·)) = false →
      encodeMsg event meta data = .error (.typeError "Invalid protocol metadata!")) ∧
    (∀ (msg : JSVal) (fs metaFs : JSFields) (e : String),
      decRevive msg = .obj fs →
      fs.get "event" = some (.str e) →
      fs.get "meta" = some (.obj metaFs) →
      (metaFs.keys.all (VALID_PROTOCOL_META_KEYS.contains ·)) = false →
      decodeMsg msg = .error (.typeErrorCoded "Invalid protocol metadata!" "EINVALMETA")) ∧
    (∀ (s : ConnState) (msg : JSVal) (err : DecodeError),
      decodeMsg msg = .error err →
      onMessage msg s = { s with events := s.events ++
        [.messageEv, .errorEv ("Failed to parse message! Error is: " ++ err.message)] }) := by
  refine ⟨?_, ?_, ?_⟩
  · intro event meta data h
    unfold encodeMsg
    rw [h]
    simp
  · intro msg fs metaFs e hrev hev hmeta hkeys
    simp only [decodeMsg, hrev, jsGetProp, hev, hmeta, Option.getD_some, jsTruthy,
      jsIsObjectType, jsKeys]
    rw [hkeys]
    simp
  · intro s msg err hdec
    simp [onMessage, hdec, emitEv]

/-- C4 witness: a bogus meta key makes `encode` throw and `decode` raise the
`EINVALMETA` error; a frame that fails decoding (here: the number `0`)
leaves the fresh connection unchanged except for the `message` and `error`
events. -/
theorem C4_witness :
    encodeMsg "hi" [("bogus", .str "x")] [.num 1] =
      .error (.typeError "Invalid protocol metadata!") ∧
    decodeMsg (.obj (.cons "event" (.str "hi")
        (.cons "meta" (.obj (.cons "bogus" (.str "x") .nil))
          (.cons "data" (.arr .nil) .nil)))) =
      .error (.typeErrorCoded "Invalid protocol metadata!" "EINVALMETA") ∧
    onMessage (.num 0) mkConn = { mkConn with events :=
      [.messageEv, .errorEv "Failed to parse message! Error is: Data is non-existent!"] } := by
  refine ⟨C4_malformed_meta.1 "hi" [("bogus", .str "x")] [.num 1] (by decide),
    C4_malformed_meta.2.1 _
      (.cons "event" (.str "hi")
        (.cons "meta" (.obj (.cons "bogus" (.str "x") .nil))
          (.cons "data" (.arr .nil) .nil)))
      (.cons "bogus" (.str "x") .nil) "hi" rfl rfl rfl (by decide), ?_⟩
  have h := C4_malformed_meta.2.2 mkConn (.num 0) (.typeError "Data is non-existent!") rfl
  simpa using h

end CW

namespace CW

/-- C5: an inbound `cwdtp::ping` control envelope is dispatched to the ping
listener, which resets the (single) heartbeat deadline to a fresh timer and
answers with a `cwdtp::pong` frame; when the armed heartbeat timer fires
while `Open`, the connection force-closes exactly once with the
`(4004, "Ping timeout")` close call, emits `pingTimeout` exactly once (the
event delta is precisely `[disconnecting, disconnect, pingTimeout]`), and
the timer is left disarmed, so a second firing is impossible (re-firing is
the identity). -/
theorem C5_heartbeat :
    (∀ (s : ConnState) (msg : JSVal) (env : Envelope),
      decodeMsg msg = .ok env → env.event = "cwdtp::ping" →
      onMessage msg s = onPing (emitEv (.internalEv "cwdtp::ping") (emitEv .messageEv s))) ∧
    (∀ s : ConnState, s.connected = true →
      (onPing s).pingTimeout = some s.nextTimer ∧
      (onPing s).nextTimer = s.nextTimer + 1 ∧
      (onPing s).sent = s.sent ++ [⟨"cwdtp::pong", []⟩]) ∧
    (∀ (s : ConnState) (t : Nat), s.connected = true → s.pingTimeout = some t →
      (pingTimeoutFire s).closes = s.closes ++ [(4004, "Ping timeout")] ∧
      (pingTimeoutFire s).events =
        s.events ++ [.disconnectingEv, .disconnectEv, .pingTimeoutEv] ∧
      (pingTimeoutFire s).pingTimeout = none ∧
      pingTimeoutFire (pingTimeoutFire s) = pingTimeoutFire s) := by
  refine ⟨?_, ?_, ?_⟩
  · intro s msg env hdec hev
    simp [onMessage, hdec, hev, onPing, clientHeartbeat, pong, sendFrame, emitEv,
      strStartsWith]
  · intro s _
    simp [onPing, clientHeartbeat, pong, sendFrame]
  · intro s t _ hp
    simp [pingTimeoutFire, hp, disconnect, onCloseCommon, emitEv, sendFrame]

/-- C5 witness: on a connected state with an armed heartbeat timer, a
concrete ping frame re-arms the timer and sends a pong, and firing the
timer closes once with the ping-timeout reason. -/
theorem C5_witness :
    (onMessage (.obj (.cons "event" (.str "cwdtp::ping")
        (.cons "meta" (.obj .nil) (.cons "data" (.arr .nil) .nil)))) c5state) =
      onPing (emitEv (.internalEv "cwdtp::ping") (emitEv .messageEv c5state)) ∧
    (onPing c5state).pingTimeout = some 1 ∧
    (pingTimeoutFire c5state).closes = [(4004, "Ping timeout")] := by
  refine ⟨C5_heartbeat.1 _ _ ⟨"cwdtp::ping", .obj .nil, .nil⟩ rfl rfl, ?_, ?_⟩
  · exact (C5_heartbeat.2.1 _ rfl).1
  · have h := (C5_heartbeat.2.2 c5state 0 rfl rfl).1
    simpa using h

/-- C7 counterexample: with the handshake timer armed (as `doClientHandshake`
leaves it), a forced teardown (`disconnect(true, ...)`, which emits the
terminal `disconnect` event) does *not* clear the handshake timer — it is
still armed afterwards and still fires, producing a second close attempt.
This falsifies "a forced teardown synchronously clears all timers". -/
theorem C7_counterexample :
    (handshakeStart "reqkey" mkConn).handshakeTimeout = some 0 ∧
    (disconnect true 4001 "Invalid negotiated protocol" true
        (handshakeStart "reqkey" mkConn)).handshakeTimeout = some 0 ∧
    (disconnect true 4001 "Invalid negotiated protocol" true
        (handshakeStart "reqkey" mkConn)).events.getLast? = some .disconnectEv ∧
    (handshakeTimeoutFire (disconnect true 4001 "Invalid negotiated protocol" true
        (handshakeStart "reqkey" mkConn))).closes =
      [(4001, "Invalid negotiated protocol"), (4002, "Handshake timed out")] :=
  ⟨rfl, rfl, rfl, rfl⟩

/-- C7 (amended): each armed timer is cleared by the transition that
supersedes it — `server-hello` clears the handshake timer, `close-ack`
clears the close timer, each heartbeat reset re-arms the ping timer and
`_onClose` clears it; a forced teardown synchronously clears *only the
heartbeat timer* before emitting the terminal `disconnect` event, and
leaves an armed handshake or close-ack timer armed (it can still fire
afterwards). -/
theorem C7_timer_cancellation :
    (∀ (meta : JSVal) (s : ConnState), (onServerHello meta s).handshakeTimeout = none) ∧
    (∀ s : ConnState, s.pendingClose.isSome = true → (onCloseAck s).closeTimeout = none) ∧
    (∀ s : ConnState, (clientHeartbeat s).pingTimeout = some s.nextTimer) ∧
    (∀ s : ConnState, (onCloseCommon s).pingTimeout = none) ∧
    (∀ (s : ConnState) (code : Int) (reason : String) (we : Bool),
      (disconnect true code reason we s).pingTimeout = none ∧
      (disconnect true code reason we s).events =
        s.events ++ [.disconnectingEv, .disconnectEv] ∧
      (disconnect true code reason we s).handshakeTimeout = s.handshakeTimeout ∧
      (disconnect true code reason we s).closeTimeout = s.closeTimeout) := by
  refine ⟨?_, ?_, ?_, ?_, ?_⟩
  · intro meta s
    simp only [onServerHello]
    split
    · split
      · split
        · simp [abortHandshake, disconnect, onCloseCommon, emitEv, sendFrame]
        · split
          · simp [abortHandshake, disconnect, onCloseCommon, emitEv, sendFrame]
          · simp [emitEv]
      · rfl
    · simp [abortHandshake, disconnect, onCloseCommon, emitEv, sendFrame]
  · intro s hp
    match h : s.pendingClose with
    | some (code, reason) => simp [onCloseAck, h, onCloseCommon, emitEv]
    | none => simp [h] at hp
  · intro s
    rfl
  · intro s
    rfl
  · intro s code reason we
    simp [disconnect, onCloseCommon, emitEv]

/-- C7 witness: concrete states exercising the amended statement — a
`server-hello` clears an armed handshake timer, a `close-ack` clears an
armed close timer, and a forced teardown on a state with all three armed
clears only the heartbeat timer. -/
theorem C7_witness :
    (onServerHello .null { mkConn with handshakeTimeout := some 3 }).handshakeTimeout =
      none ∧
    (onCloseAck c7closing).closeTimeout = none ∧
    (disconnect true 4004 "Ping timeout" true c7armed).pingTimeout = none ∧
    (disconnect true 4004 "Ping timeout" true c7armed).handshakeTimeout = some 3 :=
  ⟨C7_timer_cancellation.1 .null _,
    C7_timer_cancellation.2.1 _ rfl,
    (C7_timer_cancellation.2.2.2.2 c7armed 4004 "Ping timeout" true).1,
    ((C7_timer_cancellation.2.2.2.2 c7armed 4004 "Ping timeout" true).2.2.1).trans rfl⟩

end CW

namespace CW

/-- C2 counterexample: a player with queue `[i1 .. i5]` (input numbers 1–5)
reconciled against a snapshot with `lastProcessedInput = 3` ends with an
*empty* `unprocessedInputs` queue — `splice(0)` emptied it and the still
pending `[i4, i5]` are never pushed back — contradicting "the queue
contains exactly `[i4, i5]`". -/
theorem C2_counterexample :
    (acceptAuthoritarianState c2snap c2player).unprocessedInputs = [] ∧
    ([] : List PlayerInput) ≠ [c2i4, c2i5] := by
  refine ⟨by rfl, by decide⟩

/-- C2 (amended): with queue `[i1 .. i5]` (input numbers 1–5) and snapshot
watermark 3, `acceptAuthoritarianState` leaves the `unprocessedInputs`
queue *empty* (the pending inputs are replayed but not re-queued), and the
final position equals the snapshot position advanced by replaying `i4` then
`i5` with their recorded timestamps — per-step delta the input's timestamp
minus the previously processed input's timestamp (`i4.t − i3.t`, then
`i5.t − i4.t`), through the same integration step as local prediction. -/
theorem C2_reconciliation (p : Player) (i1 i2 i3 i4 i5 : PlayerInput) (snap : PlayerStats)
    (hq : p.unprocessedInputs = [i1, i2, i3, i4, i5])
    (h1 : i1.inputNum = 1) (h2 : i2.inputNum = 2) (h3 : i3.inputNum = 3)
    (h4 : i4.inputNum = 4) (h5 : i5.inputNum = 5)
    (hlpi : snap.lastProcessedInput = 3) :
    (acceptAuthoritarianState snap p).unprocessedInputs = [] ∧
    (acceptAuthoritarianState snap p).velocity = getVelocity p.speed i5.direction ∧
    (acceptAuthoritarianState snap p).lastInputProcessTime = i5.timestamp ∧
    (acceptAuthoritarianState snap p).position =
      boundTo p.worldBounds
        ((boundTo p.worldBounds
          ((Vec.fromObject snap.position).add
            (Vec.floorAxes ((getVelocity p.speed i4.direction).scale
              (i4.timestamp - i3.timestamp))))).add
          (Vec.floorAxes ((getVelocity p.speed i5.direction).scale
            (i5.timestamp - i4.timestamp)))) := by
  simp [acceptAuthoritarianState, hq, hlpi, acceptLoop, h1, h2, h3, h4, h5, Player.update]

/-- C2 witness: the amended statement at the concrete fixture — the queue
ends empty, the replay epoch advances to `i5`'s timestamp, and the position
is the hand-computed replay result (up at speed 1: `y` decreases by
`10 + 10`). -/
theorem C2_witness :
    (acceptAuthoritarianState c2snap c2player).unprocessedInputs = [] ∧
    (acceptAuthoritarianState c2snap c2player).lastInputProcessTime = 140 ∧
    (acceptAuthoritarianState c2snap c2player).position = ⟨50, 40⟩ := by
  have h := C2_reconciliation c2player c2i1 c2i2 c2i3 c2i4 c2i5 c2snap rfl rfl rfl rfl rfl
    rfl rfl
  refine ⟨h.1, h.2.2.1.trans rfl, h.2.2.2.trans ?_⟩
  have hfl : ∀ q : ℚ, ((Rat.floor q : ℤ) : ℚ) = (⌊q⌋ : ℚ) := fun q => by
    rw [ratFloor_intFloor]
  simp only [c2player, c2snap, c2i3, c2i4, c2i5, dirUp, getVelocity, Vec.zero, Vec.add,
    Vec.scale, Vec.floorAxes, Vec.fromObject, boundTo, clampQ, hfl]
  norm_num

end CW

namespace CW

/-- C1 failing-input evaluation: encoding the envelope
`("test", {}, Uint16Array([256]))` produces the tag object with the buffer's
*bytes* `[0, 1]`, and decoding feeds those bytes back to the constructor as
*element values*, yielding `Uint16Array([0, 1])` — the concrete kind is
preserved but the data list no longer deep-equals the original
`[Uint16Array([256])]`. -/
theorem C1_roundtrip_failing_input :
    encodeMsg "test" [] [.tarr .uint16 [256]] =
      .ok (.obj (.cons "event" (.str "test")
        (.cons "meta" (.obj .nil)
          (.cons "data" (.arr (.cons (binaryTagObj "uint16array" [0, 1]) .nil)) .nil)))) ∧
    decodeMsg (.obj (.cons "event" (.str "test")
        (.cons "meta" (.obj .nil)
          (.cons "data" (.arr (.cons (binaryTagObj "uint16array" [0, 1]) .nil)) .nil)))) =
      .ok ⟨"test", .obj .nil, .cons (.tarr .uint16 [0, 1]) .nil⟩ ∧
    (JSList.cons (JSVal.tarr .uint16 [0, 1]) .nil) ≠
      (JSList.cons (JSVal.tarr .uint16 [256]) .nil) :=
  ⟨rfl, rfl, by decide⟩

/-- Sanity evaluations backing the codec embedding: the shapes that *do*
survive the round trip — strings, numbers, booleans, nested arrays/objects,
`ArrayBuffer`, `DataView`, and the one-byte typed-array kinds (including the
signed wrap of `Int8Array`). -/
theorem codec_roundtrip_onebyte_eval :
    (match encodeMsg "e" [] [.abuf [1, 2, 3], .dview [9], .str "hi", .num 42, .bool true,
        .arr (.cons (.num 1) (.cons (.obj (.cons "a" (.str "b") .nil)) .nil)),
        .tarr .uint8 [255, 3], .tarr .int8 [-1, 7], .tarr .uint8clamped [0, 200]] with
      | .ok w => decodeMsg w
      | .error _ => .error (.typeError "unreachable")) =
      .ok ⟨"e", .obj .nil, JSList.ofList [.abuf [1, 2, 3], .dview [9], .str "hi", .num 42,
        .bool true, .arr (.cons (.num 1) (.cons (.obj (.cons "a" (.str "b") .nil)) .nil)),
        .tarr .uint8 [255, 3], .tarr .int8 [-1, 7], .tarr .uint8clamped [0, 200]]⟩ := by
  rfl

end CW

namespace CW

/-- One-byte characters pass unchanged through the `Uint16Array` char-code
stage and the element-wise `Uint8Array` conversion the hash applies. -/
theorem units_mod_eq_toNat (l : List Char) (h : ∀ c ∈ l, c.toNat < 256) :
    ((l.flatMap charUnits).map (· % 0x10000)).map (· % 256) = l.map Char.toNat := by
  induction l with
  | nil => rfl
  | cons c cs ih =>
    have hc : c.toNat < 256 := h c (by simp)
    have hc16 : c.toNat < 0x10000 := lt_trans hc (by norm_num)
    have hcs : ∀ x ∈ cs, x.toNat < 256 := fun x hx => h x (by simp [hx])
    simp only [List.flatMap_cons, charUnits, if_pos hc16, List.singleton_append,
      List.map_cons, Nat.mod_eq_of_lt hc16, Nat.mod_eq_of_lt hc, List.cons.injEq, true_and]
    exact ih hcs

/-- Aborting the handshake does not touch the `connected` flag (the abort
path runs a graceful `disconnect`, which never calls `_onClose` itself). -/
theorem abortHandshake_connected (r : String) (t : ConnState) :
    (abortHandshake r t).connected = t.connected := by
  simp [abortHandshake, disconnect, emitEv, sendFrame]

/-- C3 counterexample: a `server-hello` carrying a wrong response key (on
the state `doClientHandshake` leaves behind) sets the aborted flag and
never connects, but the transport is *not* force-closed (no `ws.close` call
has happened, the socket is still open — only the graceful close handshake
was initiated) and no `error` event is emitted (only `abortingHandshake`
and `disconnecting`), contrary to the claim's "transport force-closed,
error surfaced". -/
theorem C3_counterexample :
    (onServerHello c3wrongHello c3state).abortedHandshake = true ∧
    (onServerHello c3wrongHello c3state).connected = false ∧
    (onServerHello c3wrongHello c3state).closes = [] ∧
    (onServerHello c3wrongHello c3state).wsOpen = true ∧
    ((onServerHello c3wrongHello c3state).events.filter EmitEv.isError) = [] ∧
    ((onServerHello c3wrongHello c3state).events.filter (· = .connectEv)) = [] := by
  set_option maxRecDepth 10000 in decide

/-- C3 (amended): the expected response key the handshake computes is
`toBase64(SHA-1(bytes(requestKey ++ salt)))`, matching the reference
computation on the characters' byte values (the request key is base64,
hence one-byte characters); every `server-hello` whose present response key
differs from the expected value aborts the handshake — aborted flag set,
`abortingHandshake` then `disconnecting` surfaced (no `error` event, no
`connect`), the close frame sent with the error flag, no immediate
`ws.close` — and the connection can only reach `connected = true` from a
`server-hello` whose response key equals the expected value. -/
theorem C3_handshake :
    (∀ reqKey : String, (∀ c ∈ reqKey.data, c.toNat < 256) →
      computeExpected reqKey = toBase64 (sha1 ((reqKey ++ SALT).data.map Char.toNat))) ∧
    (∀ (s : ConnState) (meta : JSVal) (e : String),
      s.connected = false → s.expected = some e →
      jsTruthy meta = true →
      jsTruthy ((jsGetProp meta "res_key").getD .null) = true →
      jsStrEq ((jsGetProp meta "res_key").getD .null) e = false →
      (onServerHello meta s).abortedHandshake = true ∧
      (onServerHello meta s).connected = false ∧
      (onServerHello meta s).events =
        s.events ++ [.abortingHandshakeEv "Invalid response key!", .disconnectingEv] ∧
      (onServerHello meta s).sent = s.sent ++
        [⟨"cwdtp::close", [("error", .bool true), ("reason", .str "Invalid response key!")]⟩] ∧
      (onServerHello meta s).closes = s.closes) ∧
    (∀ (s : ConnState) (meta : JSVal),
      s.connected = false → (onServerHello meta s).connected = true →
      ∃ e, s.expected = some e ∧
        jsStrEq ((jsGetProp meta "res_key").getD .null) e = true) := by
  refine ⟨?_, ?_, ?_⟩
  · intro reqKey h
    have hsalt : ∀ c ∈ SALT.data, c.toNat < 256 := by decide
    have hall : ∀ c ∈ (reqKey ++ SALT).data, c.toNat < 256 := by
      intro c hc
      rw [String.data_append] at hc
      rcases List.mem_append.mp hc with hc | hc
      · exact h c hc
      · exact hsalt c hc
    unfold computeExpected cryptoHash toBinary utf16Units
    rw [units_mod_eq_toNat _ hall]
  · intro s meta e hc hexp htm htr hne
    simp [onServerHello, hexp, htm, htr, hne, abortHandshake, disconnect, emitEv,
      sendFrame, hc]
  · intro s meta hc hconn
    unfold onServerHello at hconn
    dsimp only at hconn
    split at hconn
    · split at hconn
      · split at hconn
        · rw [abortHandshake_connected, hc] at hconn
          exact absurd hconn (by simp)
        · split at hconn
          · rw [abortHandshake_connected, hc] at hconn
            exact absurd hconn (by simp)
          · rename_i e hexp hkey _
            exact ⟨e, hexp, by simpa using hkey⟩
      · rw [hc] at hconn
        exact absurd hconn (by simp)
    · rw [abortHandshake_connected, hc] at hconn
      exact absurd hconn (by simp)

/-- C3 witness: the reference-hash equation applied at the fixture request
key; a wrong response key `"no"` against expected `"E"` aborts without
connecting; and a matching key with a connection id connects, forcing the
existential to hold. -/
theorem C3_witness :
    computeExpected "AAAAAAAAAAA=" =
      toBase64 (sha1 (("AAAAAAAAAAA=" ++ SALT).data.map Char.toNat)) ∧
    (onServerHello (.obj (.cons "res_key" (.str "no") .nil))
        { mkConn with expected := some "E" }).abortedHandshake = true ∧
    (∃ e, ({ mkConn with expected := some "E" } : ConnState).expected = some e ∧
      jsStrEq ((jsGetProp (JSVal.obj (.cons "res_key" (.str "E")
        (.cons "cid" (.str "c1") .nil))) "res_key").getD .null) e = true) := by
  refine ⟨C3_handshake.1 "AAAAAAAAAAA=" (by decide), ?_, ?_⟩
  · exact (C3_handshake.2.1 { mkConn with expected := some "E" }
      (.obj (.cons "res_key" (.str "no") .nil)) "E" rfl rfl (by decide) (by decide)
      (by decide)).1
  · exact C3_handshake.2.2 { mkConn with expected := some "E" }
      (.obj (.cons "res_key" (.str "E") (.cons "cid" (.str "c1") .nil))) rfl (by decide)

end CW
